import Mathlib

/-!
Shallow embedding of the `intervals` Rust crate (bound algebra, intervals,
partitions) and proofs about its specification claims.

The crate represents one side of an interval by one of four sealed types:
`NoBound`, `Open(v)`, `Closed(v)` and the dynamic union `OpenOrClosed`
(`src/bounds/*.rs`).  We embed all of them into a single inductive `Bnd`
whose constructors track the Rust type *and*, for `OpenOrClosed`, its tag:
`ooOpen`/`ooClosed` are the two variants of the Rust `OpenOrClosed` enum,
kept distinct from the concrete `opn`/`cls` types because the Rust code
distinguishes them (combinators returning `OpenOrClosed` re-wrap concrete
results via `.into()`, and `PartialEq` compares across kinds).

The value domain is an arbitrary linear order, matching the crate's generic
`V: PartialOrd` parameter on ordered inputs; the partition types, which also
need arithmetic (`num_traits::Num + NumCast`), are embedded at `ℚ`.
-/

namespace Intervals

universe u

variable {V : Type u}

/-- One side of an interval: the four sealed Rust bound kinds, with the two
tags of the dynamic `OpenOrClosed` union kept as separate constructors. -/
inductive Bnd (V : Type u) where
  | noBound : Bnd V
  | opn : V → Bnd V
  | cls : V → Bnd V
  | ooOpen : V → Bnd V
  | ooClosed : V → Bnd V
deriving DecidableEq

namespace Bnd

/-- `Bound::value` — the carried value, if any. -/
def value : Bnd V → Option V
  | noBound => none
  | opn v => some v
  | cls v => some v
  | ooOpen v => some v
  | ooClosed v => some v

/-- `Bound::is_open` (for `OpenOrClosed`, judged by the current tag). -/
def isOpenB : Bnd V → Bool
  | opn _ => true
  | ooOpen _ => true
  | _ => false

/-- `Bound::is_closed` (for `OpenOrClosed`, judged by the current tag). -/
def isClosedB : Bnd V → Bool
  | cls _ => true
  | ooClosed _ => true
  | _ => false

/-- `Bound::with_limit_point`: `NoBound` maps to itself, every value-carrying
bound maps to the `Closed` bound on the same value (`Open::WithLimit = Closed`,
`OpenOrClosed::WithLimit = Closed`). -/
def withLimitPoint : Bnd V → Bnd V
  | noBound => noBound
  | opn v => cls v
  | cls v => cls v
  | ooOpen v => cls v
  | ooClosed v => cls v

/-- The crate's cross-kind `PartialEq` impls: bounds of different concrete
kinds are never equal, except that `OpenOrClosed` equals the concrete kind
matching its tag on the same value; `NoBound` equals only `NoBound`. -/
def beq [DecidableEq V] : Bnd V → Bnd V → Bool
  | noBound, noBound => true
  | opn a, opn b => a = b
  | cls a, cls b => a = b
  | ooOpen a, ooOpen b => a = b
  | ooClosed a, ooClosed b => a = b
  | opn a, ooOpen b => a = b
  | ooOpen a, opn b => a = b
  | cls a, ooClosed b => a = b
  | ooClosed a, cls b => a = b
  | _, _ => false

end Bnd

open Bnd

variable [LinearOrder V]

/-- `pinch_left`: the tighter of two lower bounds.  Each arm mirrors one of
the crate's `Pinch` impls (`no_bound.rs`, `open.rs`, `closed.rs`, `mixed.rs`);
arms whose Rust impl returns `OpenOrClosed` produce `oo*` constructors,
matching the `.into()` re-wrapping in the source. -/
def pinchLeft : Bnd V → Bnd V → Bnd V
  | noBound, b => b
  | a, noBound => a
  | cls a, cls b => if a ≥ b then cls a else cls b
  | opn a, opn b => if a ≥ b then opn a else opn b
  | cls a, opn b => if a > b then ooClosed a else ooOpen b
  | opn a, cls b => if a ≥ b then ooOpen a else ooClosed b
  | cls a, ooClosed b => if a ≥ b then ooClosed a else ooClosed b
  | cls a, ooOpen b => if a > b then ooClosed a else ooOpen b
  | opn a, ooOpen b => if a ≥ b then ooOpen a else ooOpen b
  | opn a, ooClosed b => if a ≥ b then ooOpen a else ooClosed b
  | ooClosed a, cls b => if a ≥ b then ooClosed a else ooClosed b
  | ooOpen a, cls b => if a ≥ b then ooOpen a else ooClosed b
  | ooClosed a, opn b => if a > b then ooClosed a else ooOpen b
  | ooOpen a, opn b => if a ≥ b then ooOpen a else ooOpen b
  | ooClosed a, ooClosed b => if a ≥ b then ooClosed a else ooClosed b
  | ooClosed a, ooOpen b => if a > b then ooClosed a else ooOpen b
  | ooOpen a, ooClosed b => if a ≥ b then ooOpen a else ooClosed b
  | ooOpen a, ooOpen b => if a ≥ b then ooOpen a else ooOpen b

/-- `pinch_right`: the tighter of two upper bounds (mirror image of
`pinchLeft`, comparisons flipped as in the source). -/
def pinchRight : Bnd V → Bnd V → Bnd V
  | noBound, b => b
  | a, noBound => a
  | cls a, cls b => if a ≤ b then cls a else cls b
  | opn a, opn b => if a ≤ b then opn a else opn b
  | cls a, opn b => if a < b then ooClosed a else ooOpen b
  | opn a, cls b => if a ≤ b then ooOpen a else ooClosed b
  | cls a, ooClosed b => if a ≤ b then ooClosed a else ooClosed b
  | cls a, ooOpen b => if a < b then ooClosed a else ooOpen b
  | opn a, ooOpen b => if a ≤ b then ooOpen a else ooOpen b
  | opn a, ooClosed b => if a ≤ b then ooOpen a else ooClosed b
  | ooClosed a, cls b => if a ≤ b then ooClosed a else ooClosed b
  | ooOpen a, cls b => if a ≤ b then ooOpen a else ooClosed b
  | ooClosed a, opn b => if a < b then ooClosed a else ooOpen b
  | ooOpen a, opn b => if a ≤ b then ooOpen a else ooOpen b
  | ooClosed a, ooClosed b => if a ≤ b then ooClosed a else ooClosed b
  | ooClosed a, ooOpen b => if a < b then ooClosed a else ooOpen b
  | ooOpen a, ooClosed b => if a ≤ b then ooOpen a else ooClosed b
  | ooOpen a, ooOpen b => if a ≤ b then ooOpen a else ooOpen b

/-- `unroll_left`: the looser of two lower bounds; any operand touching
`NoBound` unrolls to `NoBound` (`impl_unroll!` in `no_bound.rs`). -/
def unrollLeft : Bnd V → Bnd V → Bnd V
  | noBound, _ => noBound
  | _, noBound => noBound
  | cls a, cls b => if a ≤ b then cls a else cls b
  | opn a, opn b => if a ≤ b then opn a else opn b
  | cls a, opn b => if a ≤ b then ooClosed a else ooOpen b
  | opn a, cls b => if a < b then ooOpen a else ooClosed b
  | cls a, ooClosed b => if a ≤ b then ooClosed a else ooClosed b
  | cls a, ooOpen b => if a ≤ b then ooClosed a else ooOpen b
  | opn a, ooOpen b => if a ≤ b then ooOpen a else ooOpen b
  | opn a, ooClosed b => if a < b then ooOpen a else ooClosed b
  | ooClosed a, cls b => if a ≤ b then ooClosed a else ooClosed b
  | ooOpen a, cls b => if a < b then ooOpen a else ooClosed b
  | ooClosed a, opn b => if a ≤ b then ooClosed a else ooOpen b
  | ooOpen a, opn b => if a ≤ b then ooOpen a else ooOpen b
  | ooClosed a, ooClosed b => if a ≤ b then ooClosed a else ooClosed b
  | ooClosed a, ooOpen b => if a ≤ b then ooClosed a else ooOpen b
  | ooOpen a, ooClosed b => if a < b then ooOpen a else ooClosed b
  | ooOpen a, ooOpen b => if a ≤ b then ooOpen a else ooOpen b

/-- `unroll_right`: the looser of two upper bounds (mirror of `unrollLeft`). -/
def unrollRight : Bnd V → Bnd V → Bnd V
  | noBound, _ => noBound
  | _, noBound => noBound
  | cls a, cls b => if a ≥ b then cls a else cls b
  | opn a, opn b => if a ≥ b then opn a else opn b
  | cls a, opn b => if a ≥ b then ooClosed a else ooOpen b
  | opn a, cls b => if a > b then ooOpen a else ooClosed b
  | cls a, ooClosed b => if a ≥ b then ooClosed a else ooClosed b
  | cls a, ooOpen b => if a ≥ b then ooClosed a else ooOpen b
  | opn a, ooOpen b => if a ≥ b then ooOpen a else ooOpen b
  | opn a, ooClosed b => if a > b then ooOpen a else ooClosed b
  | ooClosed a, cls b => if a ≥ b then ooClosed a else ooClosed b
  | ooOpen a, cls b => if a > b then ooOpen a else ooClosed b
  | ooClosed a, opn b => if a ≥ b then ooClosed a else ooOpen b
  | ooOpen a, opn b => if a ≥ b then ooOpen a else ooOpen b
  | ooClosed a, ooClosed b => if a ≥ b then ooClosed a else ooClosed b
  | ooClosed a, ooOpen b => if a ≥ b then ooClosed a else ooOpen b
  | ooOpen a, ooClosed b => if a > b then ooOpen a else ooClosed b
  | ooOpen a, ooOpen b => if a ≥ b then ooOpen a else ooOpen b

/-- The crate's single error kind `ValidationError::DecreasingBounds(l, r)`. -/
inductive ValidationErrorB (V : Type u) where
  | decreasingBounds : Bnd V → Bnd V → ValidationErrorB V
deriving DecidableEq

/-- `bounds::validate` — each arm mirrors one `ValidateBounds` impl in
`bounds/mod.rs`: any pair touching `NoBound` is `Ok`; `Closed`/`Closed`
(also via matching `OpenOrClosed` tags) rejects `l > r`; every pair with at
least one open side rejects `l >= r`. -/
def validateB : Bnd V → Bnd V → Except (ValidationErrorB V) (Bnd V × Bnd V)
  | noBound, r => .ok (noBound, r)
  | l, noBound => .ok (l, noBound)
  | cls a, cls b =>
      if a > b then .error (.decreasingBounds (cls a) (cls b)) else .ok (cls a, cls b)
  | opn a, opn b =>
      if a ≥ b then .error (.decreasingBounds (opn a) (opn b)) else .ok (opn a, opn b)
  | cls a, opn b =>
      if a ≥ b then .error (.decreasingBounds (cls a) (opn b)) else .ok (cls a, opn b)
  | opn a, cls b =>
      if a ≥ b then .error (.decreasingBounds (opn a) (cls b)) else .ok (opn a, cls b)
  | ooOpen a, cls b =>
      if a ≥ b then .error (.decreasingBounds (ooOpen a) (cls b)) else .ok (ooOpen a, cls b)
  | ooClosed a, cls b =>
      if a > b then .error (.decreasingBounds (ooClosed a) (cls b)) else .ok (ooClosed a, cls b)
  | cls a, ooOpen b =>
      if a ≥ b then .error (.decreasingBounds (cls a) (ooOpen b)) else .ok (cls a, ooOpen b)
  | cls a, ooClosed b =>
      if a > b then .error (.decreasingBounds (cls a) (ooClosed b)) else .ok (cls a, ooClosed b)
  | ooOpen a, opn b =>
      if a ≥ b then .error (.decreasingBounds (ooOpen a) (opn b)) else .ok (ooOpen a, opn b)
  | ooClosed a, opn b =>
      if a ≥ b then .error (.decreasingBounds (ooClosed a) (opn b)) else .ok (ooClosed a, opn b)
  | opn a, ooOpen b =>
      if a ≥ b then .error (.decreasingBounds (opn a) (ooOpen b)) else .ok (opn a, ooOpen b)
  | opn a, ooClosed b =>
      if a ≥ b then .error (.decreasingBounds (opn a) (ooClosed b)) else .ok (opn a, ooClosed b)
  | ooOpen a, ooOpen b =>
      if a ≥ b then .error (.decreasingBounds (ooOpen a) (ooOpen b)) else .ok (ooOpen a, ooOpen b)
  | ooOpen a, ooClosed b =>
      if a ≥ b then .error (.decreasingBounds (ooOpen a) (ooClosed b)) else .ok (ooOpen a, ooClosed b)
  | ooClosed a, ooOpen b =>
      if a ≥ b then .error (.decreasingBounds (ooClosed a) (ooOpen b)) else .ok (ooClosed a, ooOpen b)
  | ooClosed a, ooClosed b =>
      if a > b then .error (.decreasingBounds (ooClosed a) (ooClosed b)) else .ok (ooClosed a, ooClosed b)

/-- `validate(l, r).is_ok()`. -/
def validateOk (l r : Bnd V) : Bool :=
  match validateB l r with
  | .ok _ => true
  | .error _ => false

/-- `Interval { left, right }` — a pair of bounds (`lib.rs`).  The Rust type
is generic in the two bound kinds; the embedding carries both sides as `Bnd`,
whose constructor records the kind. -/
structure IntervalB (V : Type u) where
  left : Bnd V
  right : Bnd V
deriving DecidableEq

/-- The derived `PartialEq` for `Interval`: compare the two sides with the
cross-kind bound equality. -/
def intervalBeq [DecidableEq V] (a b : IntervalB V) : Bool :=
  Bnd.beq a.left b.left && Bnd.beq a.right b.right

/-- Equality of two `Option<Interval>` values under the crate's interval
equality: both absent, or both present and equal. -/
def optionIntervalBeq [DecidableEq V] : Option (IntervalB V) → Option (IntervalB V) → Bool
  | none, none => true
  | some a, some b => intervalBeq a b
  | _, _ => false

/-- `Interval::new` — construct with bound validation. -/
def intervalNew (l r : Bnd V) : Except (ValidationErrorB V) (IntervalB V) :=
  (validateB l r).map fun lr => { left := lr.1, right := lr.2 }

/-- `Interval::intersect`: pinch both sides, then re-validate; a failed
validation becomes `none` (empty intersection), via `.ok()`. -/
def intersectI (a b : IntervalB V) : Option (IntervalB V) :=
  let left := pinchLeft a.left b.left
  let right := pinchRight a.right b.right
  (intervalNew left right).toOption

/-- The fully unbounded interval (`Interval::unbounded`). -/
def unboundedI : IntervalB V := { left := Bnd.noBound, right := Bnd.noBound }

/-- Modelled from the spec: `Interval::union_closure` is referenced by the
crate's tests (`tests/union_closure.rs`) but its definition is missing from
`src/`.  Following §4.3 of the spec: unroll each side against the matching
side of the other interval, then pass each result through
`with_limit_point()`; the result is constructed without re-validation.  The
`unroll*` and `withLimitPoint` used here are embedded from the source. -/
def unionClosure (a b : IntervalB V) : IntervalB V :=
  { left := (unrollLeft a.left b.left).withLimitPoint
    right := (unrollRight a.right b.right).withLimitPoint }

---------------------------------------------------------------------------
-- Partitions
---------------------------------------------------------------------------

/-- `SubInterval { index, interval }` (`partitions/mod.rs`): a labeled piece
of a partition; in the source the interval is `Interval<Closed, OpenOrClosed>`. -/
structure SubIntervalB (V : Type u) where
  index : Nat
  interval : IntervalB V
deriving DecidableEq

/-- `Uniform { size, left, right }` (`partitions/uniform.rs`), embedded at
`V = ℚ` (the source requires `Num + NumCast` for the width arithmetic). -/
structure UniformP where
  size : Nat
  left : ℚ
  right : ℚ
deriving DecidableEq

/-- `Uniform::partition_width`: `(right - left) / size`.  (`NumCast::from`
of a `usize` into the numeric domain always succeeds, so the `.unwrap()` in
the source cannot panic.) -/
def partitionWidth (u : UniformP) : ℚ :=
  (u.right - u.left) / (u.size : ℚ)

/-- Rust debug-build `usize` subtraction: panics (modelled as `none`) on
underflow. -/
def checkedSub (a b : Nat) : Option Nat :=
  if b ≤ a then some (a - b) else none

/-- `NumCast::from` for a numeric value into `usize`: truncates toward zero,
absent for negative inputs. -/
def numCastUsize (q : ℚ) : Option Nat :=
  if q < 0 then none else some ⌊q⌋.toNat

/-- `Uniform::len`. -/
def uniformLen (u : UniformP) : Nat := u.size

/-- `Uniform::index`.  The outer `Option` layer records whether the call
finishes normally (`some result`) or panics (`none`, from the debug-build
underflow of `self.size - 1`). -/
def uniformIndex (u : UniformP) (value : ℚ) : Option (Option Nat) :=
  if value < u.left ∨ value > u.right then
    some none
  else if value = u.right then
    (checkedSub u.size 1).map fun n => some n
  else
    some (numCastUsize ((value - u.left) / partitionWidth u))

/-- `Uniform::subinterval`: bounds-checked on `k < size`; note both edges are
anchored at the partition's global `left` (`Closed(self.left)` and
`self.left + width`), for every `k`. -/
def uniformSubinterval (u : UniformP) (k : Nat) : Option (SubIntervalB ℚ) :=
  if k < u.size then
    some
      { index := k
        interval :=
          { left := Bnd.cls u.left
            right :=
              if k = u.size - 1 then Bnd.ooClosed (u.left + partitionWidth u)
              else Bnd.ooOpen (u.left + partitionWidth u) } }
  else
    none

/-- `PartitionError::IllFormedBounds`. -/
inductive PartitionErrorB (V : Type u) where
  | illFormedBounds : List V → PartitionErrorB V
deriving DecidableEq

/-- `Declarative<N, V>([V; N])`: the breakpoint array, embedded as a list
(`N` is the list's length). -/
structure DeclarativeP (V : Type u) where
  bounds : List V
deriving DecidableEq

/-- The ascending check of `Declarative::new`:
`bounds.windows(2).all(|w| w[0] <= w[1])`, i.e. every adjacent pair is
non-decreasing. -/
def ascendingCheck (p : List V) : Bool :=
  (p.zip p.tail).all fun ab => ab.1 ≤ ab.2

/-- `Declarative::new`: builds the partition when the ascending check passes,
otherwise reports `IllFormedBounds`. -/
def decNew (p : List V) : Except (PartitionErrorB V) (DeclarativeP V) :=
  if ascendingCheck p then .ok { bounds := p } else .error (.illFormedBounds p)

/-- `Declarative::len`: returns `N - 2`. -/
def decLen (d : DeclarativeP V) : Nat := d.bounds.length - 2

/-- `Declarative::subinterval`: no bounds check on `k`; indexes `self.0[k]`
and `self.0[k+1]` directly.  The outer `Option` records whether the call
finishes (`some result`) or panics from an out-of-bounds array index
(`none`). -/
def decSubinterval (d : DeclarativeP V) (k : Nat) : Option (Option (SubIntervalB V)) :=
  match d.bounds.get? k with
  | none => none
  | some lv =>
    match d.bounds.get? (k + 1) with
    | none => none
    | some rv =>
      some (some
        { index := k
          interval :=
            { left := Bnd.cls lv
              right :=
                if k = d.bounds.length - 1 then Bnd.ooClosed rv else Bnd.ooOpen rv } })

/-- `PartialOrd::partial_cmp` for the linearly ordered value domain: always
defined. -/
def pcmp (a b : V) : Option Ordering := some (compare a b)

/-- One `while low < high` loop of the free function `binary_search` in
`partitions/declarative.rs`, run for at most `fuel` iterations.  Result
`some r` means the loop returned `r` within `fuel` iterations; `none` means
it was still running.  Array accesses `bounds[middle]` / `bounds[middle+1]`
are via `get?`; inside the loop `middle < high ≤ N - 1`, so they are always
in range and the `none` arm of the `zip` is exactly the source's undefined-
comparison early return. -/
def binarySearchLoop (p : List V) (value : V) : Nat → Nat → Nat → Option (Option Nat)
  | _, _, 0 => none
  | low, high, fuel + 1 =>
    if low < high then
      let middle := (low + high) / 2
      let l := (p.get? middle).bind fun x => pcmp x value
      let r := (p.get? (middle + 1)).bind fun x => pcmp x value
      match l, r with
      | some lc, some rc =>
        match lc with
        | .lt | .eq =>
          match rc with
          | .gt => some (some middle)
          | .eq => some (some (middle + 1))
          | .lt => binarySearchLoop p value middle high fuel
        | .gt => binarySearchLoop p value low middle fuel
      | _, _ => some none
    else
      some none

/-- The free function `binary_search`: `low = 0`, `high = N - 1`. -/
def binarySearch (p : List V) (value : V) (fuel : Nat) : Option (Option Nat) :=
  binarySearchLoop p value 0 (p.length - 1) fuel

/-- `Declarative::index`: special-case equality with the final breakpoint to
the last subinterval index `N - 2`, else binary search.  Outer `Option` is
the fuel layer of the loop: `none` means the call has not returned within
`fuel` iterations. -/
def decIndexFuel (d : DeclarativeP V) (value : V) (fuel : Nat) : Option (Option Nat) :=
  if d.bounds.get? (d.bounds.length - 1) = some value then
    some (some (d.bounds.length - 2))
  else
    binarySearch d.bounds value fuel

---------------------------------------------------------------------------
-- Helper lemmas
---------------------------------------------------------------------------

omit [LinearOrder V] in
theorem beq_refl [DecidableEq V] (x : Bnd V) : Bnd.beq x x = true := by
  cases x <;> simp [Bnd.beq]

omit [LinearOrder V] in
theorem intervalBeq_refl [DecidableEq V] (x : IntervalB V) : intervalBeq x x = true := by
  simp [intervalBeq, beq_refl]

omit [LinearOrder V] in
theorem optionIntervalBeq_refl [DecidableEq V] (x : Option (IntervalB V)) :
    optionIntervalBeq x x = true := by
  cases x <;> simp [optionIntervalBeq, intervalBeq_refl]

theorem ite_ge_comm {α : Sort*} (f : V → α) (x y : V) :
    (if x ≥ y then f x else f y) = (if y ≥ x then f y else f x) := by
  split_ifs with h1 h2 h3
  · exact congrArg f (le_antisymm h2 h1)
  · rfl
  · rfl
  · cases le_total x y with
    | inl h => exact absurd h h3
    | inr h => exact absurd h h1

theorem ite_gt_ge_comm {α : Sort*} (f g : V → α) (x y : V) :
    (if x > y then f x else g y) = (if y ≥ x then g y else f x) := by
  split_ifs with h1 h2 h3
  · exact absurd h2 (not_le.mpr h1)
  · rfl
  · rfl
  · exact absurd (not_lt.mp h1) h3

theorem ite_le_comm {α : Sort*} (f : V → α) (x y : V) :
    (if x ≤ y then f x else f y) = (if y ≤ x then f y else f x) := by
  split_ifs with h1 h2 h3
  · exact congrArg f (le_antisymm h1 h2)
  · rfl
  · rfl
  · cases le_total x y with
    | inl h => exact absurd h h1
    | inr h => exact absurd h h3

theorem ite_lt_le_comm {α : Sort*} (f g : V → α) (x y : V) :
    (if x < y then f x else g y) = (if y ≤ x then g y else f x) := by
  split_ifs with h1 h2 h3
  · exact absurd h2 (not_le.mpr h1)
  · rfl
  · rfl
  · exact absurd (not_lt.mp h1) h3

theorem pinchLeft_comm (a b : Bnd V) : pinchLeft a b = pinchLeft b a := by
  cases a <;> cases b <;> simp only [pinchLeft] <;>
    first
    | rfl
    | exact ite_ge_comm _ _ _
    | exact ite_gt_ge_comm _ _ _ _
    | exact (ite_gt_ge_comm _ _ _ _).symm

theorem pinchRight_comm (a b : Bnd V) : pinchRight a b = pinchRight b a := by
  cases a <;> cases b <;> simp only [pinchRight] <;>
    first
    | rfl
    | exact ite_le_comm _ _ _
    | exact ite_lt_le_comm _ _ _ _
    | exact (ite_lt_le_comm _ _ _ _).symm

theorem intersectI_comm (a b : IntervalB V) : intersectI a b = intersectI b a := by
  unfold intersectI
  rw [pinchLeft_comm, pinchRight_comm]

---------------------------------------------------------------------------
-- Claims
---------------------------------------------------------------------------

/-- C4: interval intersection is commutative: for every pair of intervals,
over every combination of bound kinds on each side, `A.intersect(B)` and
`B.intersect(A)` are either both absent, or both present and equal under the
crate's cross-kind interval equality. -/
theorem spec_C4 (A B : IntervalB V) :
    optionIntervalBeq (intersectI A B) (intersectI B A) = true := by
  rw [intersectI_comm]
  exact optionIntervalBeq_refl _

/-- C7: left-pinching `Closed(a)` against `Open(b)` yields `Closed(a)` when
`a > b` and `Open(b)` otherwise (a tie excludes the closed point);
right-pinching mirrors this with `<`; and the same outcomes hold with the
operands swapped (`Open` pinched against `Closed`). -/
theorem spec_C7 (a b : V) :
    pinchLeft (cls a) (opn b) = (if a > b then ooClosed a else ooOpen b) ∧
    pinchRight (cls a) (opn b) = (if a < b then ooClosed a else ooOpen b) ∧
    pinchLeft (opn b) (cls a) = (if a > b then ooClosed a else ooOpen b) ∧
    pinchRight (opn b) (cls a) = (if a < b then ooClosed a else ooOpen b) := by
  refine ⟨rfl, rfl, ?_, ?_⟩
  · simp only [pinchLeft]
    exact (ite_gt_ge_comm ooClosed ooOpen a b).symm
  · simp only [pinchRight]
    exact (ite_lt_le_comm ooClosed ooOpen a b).symm

/-- C8: the union-closure of the fully unbounded interval with any interval
is the fully unbounded interval, both as plain equality and under the
crate's interval equality. -/
theorem spec_C8 (X : IntervalB V) :
    unionClosure unboundedI X = unboundedI ∧
    intervalBeq (unionClosure unboundedI X) unboundedI = true := by
  obtain ⟨xl, xr⟩ := X
  have h : unionClosure unboundedI ⟨xl, xr⟩ = unboundedI := by
    cases xl <;> cases xr <;> rfl
  exact ⟨h, by rw [h]; exact intervalBeq_refl _⟩

/-- C3: `validate(l, r)` is `Ok` iff not ((both bounds Closed and `l > r`) or
(at least one bound Open and `l >= r`)); any pair in which either side is
Unbounded (carries no value) is always `Ok`, for every ordered pair of the
four bound kinds, with `OpenOrClosed` judged by its current tag. -/
theorem spec_C3 (l r : Bnd V) :
    validateOk l r = true ↔
      ¬ (∃ a b, l.value = some a ∧ r.value = some b ∧
          ((l.isClosedB = true ∧ r.isClosedB = true ∧ b < a) ∨
           ((l.isOpenB = true ∨ r.isOpenB = true) ∧ b ≤ a))) := by
  cases l <;> cases r <;>
    simp only [validateOk, validateB, Bnd.value, Bnd.isOpenB, Bnd.isClosedB] <;>
    (try simp) <;>
    (split_ifs with h <;> simp_all)

theorem ascendingCheck_iff (p : List V) :
    ascendingCheck p = true ↔ p.Chain' (· ≤ ·) := by
  induction p with
  | nil => simp [ascendingCheck]
  | cons a t ih =>
    cases t with
    | nil => simp [ascendingCheck]
    | cons b t2 =>
      simp only [ascendingCheck, List.tail_cons, List.zip_cons_cons, List.all_cons,
        Bool.and_eq_true, decide_eq_true_eq, List.chain'_cons] at ih ⊢
      exact and_congr Iff.rfl ih

/-- C9: `Declarative::new` returns the partition holding the supplied
breakpoints exactly when they are ascending (every adjacent pair
non-decreasing), and otherwise reports the ill-formed-breakpoints error. -/
theorem spec_C9 (p : List V) :
    (decNew p = Except.ok { bounds := p } ↔ p.Chain' (· ≤ ·)) ∧
    (decNew p = Except.error (.illFormedBounds p) ↔ ¬ p.Chain' (· ≤ ·)) := by
  have h := ascendingCheck_iff p
  unfold decNew
  split_ifs with hc <;> simp_all

/-- C1 (failing-input evaluation): for `Uniform { size: 5, left: 0, right: 5 }`
(width 1), `subinterval(1)` returns the interval `[0, 1)` anchored at the
partition's global left bound — not the per-bucket interval `[1, 2)` with
left edge `L + k·width` that the claim states. -/
theorem spec_C1 :
    uniformSubinterval ⟨5, 0, 5⟩ 1 =
      some { index := 1, interval := { left := Bnd.cls 0, right := Bnd.ooOpen 1 } } ∧
    (⟨5, 0, 5⟩ : UniformP).left + (1 : ℚ) * partitionWidth ⟨5, 0, 5⟩ = 1 ∧
    Bnd.cls (0 : ℚ) ≠ Bnd.cls (1 : ℚ) := by
  refine ⟨?_, ?_, by simp⟩
  · norm_num [uniformSubinterval, partitionWidth]
  · norm_num [partitionWidth]

/-- C5 (failing-input evaluation): `Declarative([0, 5, 10]).subinterval(2)`
panics with an out-of-bounds array index (it reads `p[3]`) instead of
returning an absent value. -/
theorem spec_C5 : decSubinterval (⟨[0, 5, 10]⟩ : DeclarativeP ℤ) 2 = none := by
  rfl

/-- C6 counterexample: for `Declarative([0, 5, 10])` (N = 3 breakpoints),
`len()` is 1, not the N − 1 = 2 the claim states. -/
theorem spec_C6_cex : decLen (⟨[0, 5, 10]⟩ : DeclarativeP ℤ) ≠ ([0, 5, 10] : List ℤ).length - 1 := by
  decide

omit [LinearOrder V] in
/-- C6 (amended): a Declarative partition over N breakpoints reports
`len() = N − 2`, and every successfully returned subinterval (those with
`k + 1 < N`) has left edge `Closed(p[k])` and right edge `Open(p[k+1])`;
the Closed right edge is reserved for `k = N − 1`, which indexes out of
bounds. -/
theorem spec_C6 (p : List V) (k : Nat) (lv rv : V)
    (h1 : p.get? k = some lv) (h2 : p.get? (k + 1) = some rv) :
    decLen ⟨p⟩ = p.length - 2 ∧
    decSubinterval ⟨p⟩ k =
      some (some { index := k, interval := { left := Bnd.cls lv, right := Bnd.ooOpen rv } }) := by
  obtain ⟨hlt, -⟩ := List.get?_eq_some.mp h2
  have hk : k ≠ p.length - 1 := by omega
  have h1' : p[k]? = some lv := by rw [← List.get?_eq_getElem?]; exact h1
  have h2' : p[k + 1]? = some rv := by rw [← List.get?_eq_getElem?]; exact h2
  exact ⟨rfl, by simp [decSubinterval, h1', h2', hk]⟩

theorem spec_C6_witness :
    (([0, 5, 10] : List ℤ).get? 0 = some 0) ∧ (([0, 5, 10] : List ℤ).get? 1 = some 5) ∧
    decLen (⟨[0, 5, 10]⟩ : DeclarativeP ℤ) = ([0, 5, 10] : List ℤ).length - 2 ∧
    decSubinterval (⟨[0, 5, 10]⟩ : DeclarativeP ℤ) 0 =
      some (some { index := 0, interval := { left := Bnd.cls 0, right := Bnd.ooOpen 5 } }) :=
  ⟨rfl, rfl, spec_C6 [0, 5, 10] 0 0 5 rfl rfl⟩

/-- C10: a `Uniform` partition with `size = 0` (constructible, since the
fields are public) panics by `usize` underflow when `index` is queried at
the right endpoint with `left ≤ right`: the `value == right` branch
evaluates `size - 1` on an unsigned zero. -/
theorem spec_C10 (u : UniformP) (h0 : u.size = 0) (h1 : u.left ≤ u.right) :
    uniformIndex u u.right = none := by
  simp [uniformIndex, checkedSub, h0, not_lt.mpr h1, lt_irrefl]

theorem spec_C10_witness :
    (⟨0, 0, 0⟩ : UniformP).size = 0 ∧ ((⟨0, 0, 0⟩ : UniformP).left ≤ (⟨0, 0, 0⟩ : UniformP).right) ∧
    uniformIndex ⟨0, 0, 0⟩ (⟨0, 0, 0⟩ : UniformP).right = none :=
  ⟨rfl, le_refl 0, spec_C10 ⟨0, 0, 0⟩ rfl (le_refl 0)⟩

theorem bsLoop_stuck (m : Nat) :
    binarySearchLoop ([0, 5, 10] : List ℤ) 20 1 2 m = none := by
  induction m with
  | zero => rfl
  | succ n ih =>
    have hstep : binarySearchLoop ([0, 5, 10] : List ℤ) 20 1 2 (n + 1) =
        binarySearchLoop ([0, 5, 10] : List ℤ) 20 1 2 n := rfl
    rw [hstep]
    exact ih

/-- C2 (divergence): querying `Declarative([0, 5, 10]).index(20)` — a value
strictly above the final breakpoint — never returns: the binary-search loop
re-assigns `low = middle` without progress (state `low = 1, high = 2`
repeats forever), so for every iteration budget the call is still running,
contradicting the claim that `index` always terminates. -/
theorem spec_C2 (fuel : Nat) :
    decIndexFuel (⟨[0, 5, 10]⟩ : DeclarativeP ℤ) 20 fuel = none := by
  cases fuel with
  | zero => rfl
  | succ m =>
    have hstep : decIndexFuel (⟨[0, 5, 10]⟩ : DeclarativeP ℤ) 20 (m + 1) =
        binarySearchLoop ([0, 5, 10] : List ℤ) 20 1 2 m := rfl
    rw [hstep]
    exact bsLoop_stuck m

end Intervals
